import Mathlib

/-!
Shallow embedding of the agent–obligation simulation (config.js, norms.js,
agent.js, sketch.js, exporter.js).  JavaScript `Map`s become association
lists with JS `Map.set` semantics (overwrite in place, append otherwise);
numbers become `ℚ` (or `ℕ` for counters and ids); `undefined` object fields
become `Option` values; a thrown `TypeError` becomes an explicit `thrown`
outcome carrying the state at the moment of the throw; calls to the shared
random generator become explicit inputs threaded through each function.
-/

/-- Obligation status values: 'pending' | 'fulfilled' | 'denied' | 'expired' | 'repaired'. -/
inductive Status where
  | pending
  | fulfilled
  | denied
  | expired
  | repaired
deriving DecidableEq, Repr

/-- One entry of the obligation log: `{status, norm, from, to, generation}`.
The `norm` field is an `Option` because `defaultEnforce` (norms.js) logs
`vec.normType`, a field the current `ObligationVector` constructor never
sets (it stores the norm in `norm`), so that value is `undefined`. -/
structure LogEntry where
  status : Status
  norm : Option String
  fromId : Nat
  toId : Nat
  generation : Nat
deriving DecidableEq, Repr

/-- Association-list lookup, the embedding of JS `Map.get` / object indexing. -/
def lookupA {α : Type} : List (Nat × α) → Nat → Option α
  | [], _ => none
  | (k, v) :: rest, key => if k = key then some v else lookupA rest key

/-- Association-list update with JS `Map.set` semantics: an existing key keeps
its position and gets the new value, a new key is appended. -/
def setA {α : Type} : List (Nat × α) → Nat → α → List (Nat × α)
  | [], key, v => [(key, v)]
  | (k, w) :: rest, key, v =>
      if k = key then (k, v) :: rest else (k, w) :: setA rest key v

/-- String-keyed association-list lookup (JS object indexing by string key). -/
def lookupS {α : Type} : List (String × α) → String → Option α
  | [], _ => none
  | (k, v) :: rest, key => if k = key then some v else lookupS rest key

/-- String-keyed association-list update, JS object assignment semantics
(existing key keeps its position, new key appended). -/
def setS {α : Type} : List (String × α) → String → α → List (String × α)
  | [], key, v => [(key, v)]
  | (k, w) :: rest, key, v =>
      if k = key then (k, v) :: rest else (k, w) :: setS rest key v

/-- The configuration surface of `SIM_CONFIG` (config.js) that the core
logic reads: enforcement rules, trust growth, obligation sampling,
reproduction, death, repair and the norm list. -/
structure Config where
  proximityThreshold : ℚ
  expirationBase : Nat
  expirationRandom : Nat
  increment : ℚ
  decrement : ℚ
  countMultiplier : Nat
  maxVectors : Nat
  numAgents : Nat
  repairChance : ℚ
  reproductionChance : ℚ
  mutationBase : ℚ
  maxConflictMutation : ℚ
  preferenceInheritance : ℚ
  baseRate : ℚ
  conflictWeight : ℚ
  oldAgeBoost : ℚ
  ageThreshold : Nat
  normTypes : List String
deriving DecidableEq, Repr

/-- The default values of `SIM_CONFIG` in config.js. -/
def SIM_CONFIG : Config where
  proximityThreshold := 150
  expirationBase := 10
  expirationRandom := 10
  increment := 1
  decrement := 1
  countMultiplier := 2
  maxVectors := 500
  numAgents := 100
  repairChance := 1/10
  reproductionChance := 1/4
  mutationBase := 1/20
  maxConflictMutation := 1/10
  preferenceInheritance := 3/4
  baseRate := 1/20
  conflictWeight := 1/100
  oldAgeBoost := 1/20
  ageThreshold := 5
  normTypes := ["legal", "apriori", "care", "epistemic"]

/-- The per-agent state of agent.js that the core logic reads and writes.
The dynamic JS fields `<norm>Acknowledges` are gathered into the
`acknowledges` association list; purely visual fields (colour, trails,
velocity, visual radius) are not part of the verified state.  Positions
are points in the plane with rational coordinates. -/
structure Agent where
  id : Nat
  pos : ℚ × ℚ
  acknowledges : List (String × Bool)
  normPreference : String
  scenarioGroup : String
  affiliation : String
  trustMap : List (Nat × ℚ)
  relationalLedger : List (Nat × Status)
  obligationAttempts : Nat
  obligationSuccesses : Nat
  internalConflict : Nat
  contradictionDebt : Nat
  culturalMomentum : ℚ
  birthGeneration : Nat
deriving DecidableEq, Repr

/-- Reading `agent[norm + "Acknowledges"]`: a missing field is `undefined`,
which is falsy, hence the default `false`. -/
def getAck (a : Agent) (norm : String) : Bool :=
  (lookupS a.acknowledges norm).getD false

/-- Agent.recordTrust (agent.js): `current = trustMap.get(id) || 0;
delta = fulfilled ? increment : -decrement; trustMap.set(id, current+delta)`. -/
def Agent.recordTrust (a : Agent) (targetID : Nat) (fulfilled : Bool) (cfg : Config) : Agent :=
  let current := (lookupA a.trustMap targetID).getD 0
  let delta := if fulfilled then cfg.increment else -cfg.decrement
  { a with trustMap := setA a.trustMap targetID (current + delta) }

/-- Agent.updateConflictAndDebt (agent.js): recompute `internalConflict`
(count of 'denied' ledger entries) and `contradictionDebt` (count of
'denied' or 'expired' ledger entries) from the relational ledger. -/
def Agent.updateConflictAndDebt (a : Agent) : Agent :=
  let conflict := (a.relationalLedger.filter (fun e => decide (e.2 = .denied))).length
  let debt := (a.relationalLedger.filter
      (fun e => decide (e.2 = .denied) || decide (e.2 = .expired))).length
  { a with internalConflict := conflict, contradictionDebt := debt }

/-- One registry entry of norms.js: a colour and the acknowledgment
predicate, which for every norm in the source reads the agent field
`<ackField>Acknowledges`.  Every entry's `enforceFn` delegates to
`defaultEnforce`, so the enforcement policy needs no per-entry data. -/
structure NormDef where
  color : List Nat
  ackField : String
deriving DecidableEq, Repr

/-- The built-in norm registry of norms.js with its four norms. -/
def normRegistry : List (String × NormDef) :=
  [ ("legal", ⟨[128, 0, 128], "legal"⟩),
    ("apriori", ⟨[0, 0, 255], "apriori"⟩),
    ("care", ⟨[0, 150, 0], "care"⟩),
    ("epistemic", ⟨[255, 165, 0], "epistemic"⟩) ]

/-- registerNorm (norms.js): `normRegistry[name] = spec` — plain object
assignment, adding the key or overwriting an existing one. -/
def registerNorm (name : String) (spec : NormDef) (reg : List (String × NormDef)) :
    List (String × NormDef) :=
  setS reg name spec

/-- Squared Euclidean distance between two points. -/
def distSq (p q : ℚ × ℚ) : ℚ :=
  (p.1 - q.1) * (p.1 - q.1) + (p.2 - q.2) * (p.2 - q.2)

/-- The comparison `p5.Vector.dist(p, q) < t`.  Since the distance is the
nonnegative square root of `distSq p q`, it is below `t` exactly when `t`
is positive and `distSq p q < t * t`; this avoids irrational square roots. -/
def withinDist (p q : ℚ × ℚ) (t : ℚ) : Bool :=
  decide (0 < t) && decide (distSq p q < t * t)

/-- The obligation-vector state of agent.js: source/target references
(`Option` because the null check `!this.source || !this.target` guards
them), strength, norm, status, age and expiration bound, plus the
animation gate (`animT`, `animSpeed`, `spawnFrame`, `resolveOnArrival`).
`normType` and `expiration` are fields that `defaultEnforce` (norms.js)
reads but that the current constructor never sets, hence `Option`s that
are `none` on every vector the constructor builds; `fulfilled` starts
absent (falsy) and is modelled as a `Bool` starting `false`. -/
structure ObligationVector where
  source : Option Agent
  target : Option Agent
  strength : ℚ
  norm : String
  normType : Option String
  expiration : Option Nat
  status : Status
  age : Nat
  maxAge : Nat
  animT : ℚ
  animSpeed : ℚ
  spawnFrame : Nat
  resolveOnArrival : Bool
  fulfilled : Bool
deriving DecidableEq, Repr

/-- Outcome of `defaultEnforce`: either a normal return (carrying the
updated vector fields, source, target, log, and the JS return value,
always `undefined` = `none` in the source) or a thrown `TypeError`. -/
inductive DEOutcome where
  | ok (vec : ObligationVector) (s t : Agent) (log : List LogEntry) (res : Option Status)
  | thrown (vec : ObligationVector) (s t : Agent) (log : List LogEntry)
deriving DecidableEq, Repr

/-- defaultEnforce (norms.js).  It reads `vec.normType` — a field the
current ObligationVector constructor does not set — and indexes the
registry with it (JS coerces the `undefined` key to the string
"undefined"); if the registry has no such entry, the dereference
`normRegistry[norm].acknowledgeFn` throws a TypeError.  Otherwise: deny
(once per (source,target) ledger pair) when either endpoint does not
acknowledge; expire (once) when `age >= vec.expiration` (false when
`expiration` is `undefined`); fulfil when within the proximity threshold,
incrementing only the source's trust toward the target; finally apply the
motion force (motion subsystem, not part of the verified state) and
increment `vec.age`. -/
def defaultEnforce (cfg : Config) (reg : List (String × NormDef)) (generation : Nat)
    (vec : ObligationVector) (s t : Agent) (log : List LogEntry) : DEOutcome :=
  let normKey := vec.normType.getD "undefined"
  match lookupS reg normKey with
  | none => .thrown vec s t log
  | some nd =>
    if ¬ (getAck s nd.ackField) ∨ ¬ (getAck t nd.ackField) then
      if (lookupA s.relationalLedger t.id).isNone then
        let s1 := { s with relationalLedger := setA s.relationalLedger t.id .denied }
        .ok vec s1 t (log ++ [⟨.denied, vec.normType, s.id, t.id, generation⟩]) none
      else
        .ok vec s t log none
    else if !vec.fulfilled && (match vec.expiration with
        | some e => decide (vec.age ≥ e)
        | none => false) then
      if (lookupA s.relationalLedger t.id).isNone then
        let s1 := { s with relationalLedger := setA s.relationalLedger t.id .expired }
        .ok vec s1 t (log ++ [⟨.expired, vec.normType, s.id, t.id, generation⟩]) none
      else
        .ok vec s t log none
    else
      if withinDist s.pos t.pos cfg.proximityThreshold && !vec.fulfilled then
        let s1 := { s with
          obligationAttempts := s.obligationAttempts + 1,
          obligationSuccesses := s.obligationSuccesses + 1 }
        let currentTrust : ℚ := (lookupA s1.trustMap t.id).getD 0
        let s2 := { s1 with trustMap := setA s1.trustMap t.id (currentTrust + cfg.increment) }
        let s3 := { s2 with relationalLedger := setA s2.relationalLedger t.id .fulfilled }
        let vec1 := { vec with fulfilled := true, age := vec.age + 1 }
        .ok vec1 s3 t (log ++ [⟨.fulfilled, vec.normType, s.id, t.id, generation⟩]) none
      else
        .ok { vec with age := vec.age + 1 } s t log none

/-- Outcome of ObligationVector.enforce: a normal return or a propagated
TypeError thrown inside the norm policy, in both cases carrying the state
(vector with its embedded source/target, and the obligation log). -/
inductive EnforceOutcome where
  | ok (vec : ObligationVector) (log : List LogEntry)
  | thrown (vec : ObligationVector) (log : List LogEntry)
deriving DecidableEq, Repr

/-- The resolution tail of ObligationVector.enforce (agent.js): set the
status; when it is fulfilled or denied, bump the attempt (and on
fulfilment the success) counter, overwrite the source's ledger entry for
the target, update trust symmetrically in both directions and append a
log entry. -/
def finishResolution (cfg : Config) (generation : Nat) (v : ObligationVector)
    (s t : Agent) (log : List LogEntry) (st : Status) : EnforceOutcome :=
  if st = .fulfilled ∨ st = .denied then
    let s1 := { s with
      obligationAttempts := s.obligationAttempts + 1,
      obligationSuccesses := s.obligationSuccesses + (if st = Status.fulfilled then 1 else 0),
      relationalLedger := setA s.relationalLedger t.id st }
    let s2 := s1.recordTrust t.id (decide (st = Status.fulfilled)) cfg
    let t2 := t.recordTrust s.id (decide (st = Status.fulfilled)) cfg
    .ok { v with status := st, source := some s2, target := some t2 }
      (log ++ [⟨st, some v.norm, s.id, t.id, generation⟩])
  else
    .ok { v with status := st, source := some s, target := some t } log

/-- The post-gate body of ObligationVector.enforce (agent.js): run the
registered norm's policy (every registry entry delegates to
`defaultEnforce`, which is also the fallback), and if it returns no
canonical status — it always returns `undefined` — resolve by the
probabilistic baseline `p = strength × proximityFactor ×
acknowledgmentFactor` against the drawn value `r`. -/
def enforceCore (cfg : Config) (reg : List (String × NormDef)) (generation : Nat)
    (r : ℚ) (v : ObligationVector) (s t : Agent) (log : List LogEntry) : EnforceOutcome :=
  match defaultEnforce cfg reg generation v s t log with
  | .thrown v1 s1 t1 log1 =>
      .thrown { v1 with source := some s1, target := some t1 } log1
  | .ok v1 s1 t1 log1 res =>
    match res with
    | some .fulfilled => finishResolution cfg generation v1 s1 t1 log1 .fulfilled
    | some .denied => finishResolution cfg generation v1 s1 t1 log1 .denied
    | some .pending => finishResolution cfg generation v1 s1 t1 log1 .pending
    | _ =>
      let proxOK := withinDist s1.pos t1.pos cfg.proximityThreshold
      let ackOK := getAck s1 v1.norm && getAck t1 v1.norm
      let p := v1.strength * (if proxOK then 1 else 3/5) * (if ackOK then 1 else 1/2)
      let st := if r < p then Status.fulfilled else Status.denied
      finishResolution cfg generation v1 s1 t1 log1 st

/-- The wrapper's expiration effect on the source (agent.js lines 380-381):
overwrite the ledger entry for the target to 'expired' and decrement the
trust toward the target. -/
def expireSource (cfg : Config) (s t : Agent) : Agent :=
  Agent.recordTrust
    { s with relationalLedger := setA s.relationalLedger t.id Status.expired }
    t.id false cfg

/-- ObligationVector.stepAnimation (agent.js): before the spawn frame the
animation does not move; afterwards `animT` grows by `animSpeed` up to 1. -/
def stepAnimation (v : ObligationVector) (frameCount : Nat) : ObligationVector :=
  if frameCount < v.spawnFrame then v
  else { v with animT := min 1 (v.animT + v.animSpeed) }

/-- The body of ObligationVector.enforce (agent.js) once both references
are present.  A pending vector ages and may expire (ledger overwritten to
'expired', trust down in both directions, one log entry).  A non-pending
vector is left untouched.  Otherwise the animation advances and, while
`resolveOnArrival` gates resolution (`animT < 1`), nothing further
happens; past the gate the norm policy and baseline run via
`enforceCore`.  The random draw `r` stands for the `random()` call in the
baseline. -/
def enforcePresent (cfg : Config) (reg : List (String × NormDef))
    (generation frameCount : Nat) (r : ℚ) (v : ObligationVector) (s t : Agent)
    (log : List LogEntry) : EnforceOutcome :=
  if v.status = .pending then
    if v.age + 1 > v.maxAge then
      .ok { v with
              status := .expired, age := v.age + 1,
              source := some (expireSource cfg s t),
              target := some (t.recordTrust s.id false cfg) }
        (log ++ [⟨.expired, some v.norm, s.id, t.id, generation⟩])
    else
      if v.resolveOnArrival ∧
          (stepAnimation { v with age := v.age + 1 } frameCount).animT < 1 then
        .ok (stepAnimation { v with age := v.age + 1 } frameCount) log
      else
        enforceCore cfg reg generation r
          (stepAnimation { v with age := v.age + 1 } frameCount) s t log
  else
    .ok v log

/-- The null guard of ObligationVector.enforce: with both references
present, delegate to the body above. -/
def ObligationVector.enforce (cfg : Config) (reg : List (String × NormDef))
    (generation frameCount : Nat) (r : ℚ) (v : ObligationVector)
    (log : List LogEntry) : EnforceOutcome :=
  match v.source with
  | none => EnforceOutcome.ok v log
  | some s =>
    match v.target with
    | none => EnforceOutcome.ok v log
    | some t => enforcePresent cfg reg generation frameCount r v s t log

/-- The vector carried by an enforcement outcome. -/
def EnforceOutcome.vecOf : EnforceOutcome → ObligationVector
  | .ok v _ => v
  | .thrown v _ => v

/-- The obligation log carried by an enforcement outcome. -/
def EnforceOutcome.logOf : EnforceOutcome → List LogEntry
  | .ok _ l => l
  | .thrown _ l => l

/-- Whether the outcome is a thrown TypeError. -/
def EnforceOutcome.isThrown : EnforceOutcome → Bool
  | .ok _ _ => false
  | .thrown _ _ => true

/-- The relational ledger of a vector's source agent (empty when null). -/
def ObligationVector.sourceLedger (v : ObligationVector) : List (Nat × Status) :=
  (v.source.map (fun a => a.relationalLedger)).getD []

/-- The trust map of a vector's source agent (empty when null). -/
def ObligationVector.sourceTrust (v : ObligationVector) : List (Nat × ℚ) :=
  (v.source.map (fun a => a.trustMap)).getD []

/-- The trust map of a vector's target agent (empty when null). -/
def ObligationVector.targetTrust (v : ObligationVector) : List (Nat × ℚ) :=
  (v.target.map (fun a => a.trustMap)).getD []

/-- The moral-repair pass of evolveGeneration (sketch.js) applied to one
agent's relational ledger: every 'denied' or 'expired' entry draws a
random value (`rs idx`, consumed only on such entries, matching the
short-circuit `&& random() < repairChance`) and, when it is below the
repair chance, is set to 'repaired' and logged with norm "n/a". -/
def moralRepairLedger (cfg : Config) (generation agentId : Nat) (rs : Nat → ℚ) :
    List (Nat × Status) → Nat → List (Nat × Status) × List LogEntry × Nat
  | [], idx => ([], [], idx)
  | (tid, st) :: rest, idx =>
    if st = Status.denied ∨ st = Status.expired then
      if rs idx < cfg.repairChance then
        ((tid, Status.repaired) :: (moralRepairLedger cfg generation agentId rs rest (idx + 1)).1,
          ⟨Status.repaired, some "n/a", agentId, tid, generation⟩ ::
            (moralRepairLedger cfg generation agentId rs rest (idx + 1)).2.1,
          (moralRepairLedger cfg generation agentId rs rest (idx + 1)).2.2)
      else
        ((tid, st) :: (moralRepairLedger cfg generation agentId rs rest (idx + 1)).1,
          (moralRepairLedger cfg generation agentId rs rest (idx + 1)).2.1,
          (moralRepairLedger cfg generation agentId rs rest (idx + 1)).2.2)
    else
      ((tid, st) :: (moralRepairLedger cfg generation agentId rs rest idx).1,
        (moralRepairLedger cfg generation agentId rs rest idx).2.1,
        (moralRepairLedger cfg generation agentId rs rest idx).2.2)

/-- The bundle of random draws one iteration of the generateObligations
loop consumes: the source index (`random(agents)`), the target index
(`random(nearby)`), the raw uniform value behind `random(0.2, 1.0)`, the
norm index (`random(normTypes)`), and the constructor's expiration
jitter (`floor(random(expirationRandom))`), animation speed and spawn
frame. -/
structure Draw where
  srcIdx : Nat
  tgtIdx : Nat
  strengthR : ℚ
  normIdx : Nat
  maxAgeJitter : Nat
  animSpeedR : ℚ
  spawnFrameR : Nat
deriving DecidableEq, Repr

/-- Uniform choice from a list, `random(arr)` in p5: an arbitrary index is
reduced modulo the length, so a nonempty list always yields an element. -/
def pick {α : Type} (l : List α) (i : Nat) (d : α) : α :=
  l.getD (i % l.length) d

/-- A default agent, the placeholder value of the total `pick` (never
selected from a nonempty list). -/
def defaultAgent : Agent :=
  ⟨0, (0, 0), [], "legal", "legal", "pref_legal", [], [], 0, 0, 0, 0, mkRat 1 2, 0⟩

/-- The ObligationVector constructor (agent.js): status 'pending', age 0,
`maxAge = expirationBase + floor(random(expirationRandom))`, animation
state initialised, `resolveOnArrival` true; the fields `normType`,
`expiration` and `fulfilled` are never assigned (undefined / falsy). -/
def mkObligationVector (cfg : Config) (source target : Agent) (strength : ℚ)
    (norm : String) (d : Draw) : ObligationVector where
  source := some source
  target := some target
  strength := strength
  norm := norm
  normType := none
  expiration := none
  status := Status.pending
  age := 0
  maxAge := cfg.expirationBase + d.maxAgeJitter
  animT := 0
  animSpeed := d.animSpeedR
  spawnFrame := d.spawnFrameR
  resolveOnArrival := true
  fulfilled := false

/-- JS `[g1, g2].sort().join('|')`: the lexicographically sorted pair of
group names joined with a bar, the key format of the hostilePairs set. -/
def sortKey (g1 g2 : String) : String :=
  if g1 ≤ g2 then g1 ++ "|" ++ g2 else g2 ++ "|" ++ g1

/-- The two successive target filters of generateObligations (sketch.js):
first `a !== source && dist(a, source) < proximity`, then the removal of
targets whose affiliation forms a currently-hostile pair with the
source's affiliation (`!hostilePairs.has([source.affiliation,
a.affiliation].sort().join('|'))`). -/
def eligibleTargets (cfg : Config) (agents : List Agent) (hostilePairs : List String)
    (source : Agent) : List Agent :=
  (agents.filter (fun a =>
    decide (a.id ≠ source.id) && withinDist a.pos source.pos cfg.proximityThreshold)).filter
      (fun a => !(decide (sortKey source.affiliation a.affiliation ∈ hostilePairs)))

/-- The loop body of generateObligations (sketch.js): each draw picks a
source, restricts targets via `eligibleTargets`, and either skips (no
retry, `continue`) or pushes one new pending vector with strength
`random(0.2, 1.0)` and a random norm. -/
def genDraws (cfg : Config) (agents : List Agent) (hostilePairs : List String) :
    List Draw → List ObligationVector
  | [] => []
  | d :: rest =>
    let source := pick agents d.srcIdx defaultAgent
    let nearby2 := eligibleTargets cfg agents hostilePairs source
    if nearby2.isEmpty then
      genDraws cfg agents hostilePairs rest
    else
      mkObligationVector cfg source (pick nearby2 d.tgtIdx defaultAgent)
        (1/5 + d.strengthR * (1 - 1/5)) (pick cfg.normTypes d.normIdx "legal") d ::
        genDraws cfg agents hostilePairs rest

/-- generateObligations (sketch.js): clear the vectors, return immediately
for fewer than two agents, otherwise sample
`min(agents.length × countMultiplier, maxVectors)` draws. -/
def generateObligations (cfg : Config) (agents : List Agent)
    (hostilePairs : List String) (draws : List Draw) : List ObligationVector :=
  if agents.length < 2 then []
  else
    let vectorCount := min (agents.length * cfg.countMultiplier) cfg.maxVectors
    genDraws cfg agents hostilePairs (draws.take vectorCount)

/-- JS object-key accumulation: the distinct values of a list in order of
first occurrence (the iteration order of `Object.keys(groupMembers)`). -/
def firstDedup (l : List String) : List String :=
  l.foldl (fun acc g => if g ∈ acc then acc else acc ++ [g]) []

/-- The index pairs `(i, j)` with `i < j` of the nested loops in
updateGroupDynamics, materialised as element pairs. -/
def distinctPairs {α : Type} : List α → List (α × α)
  | [] => []
  | g :: rest => rest.map (fun h => (g, h)) ++ distinctPairs rest

/-- Sum of `a.trustMap.get(b.id) || 0` over all members a of the first
group and b of the second, one direction of the pooled average in
updateGroupDynamics. -/
def pairTrustSum (m1 m2 : List Agent) : ℚ :=
  (m1.map (fun a => (m2.map (fun b => (lookupA a.trustMap b.id).getD 0)).sum)).sum

/-- The pooled average trust between two affiliation groups computed by
updateGroupDynamics (sketch.js): sum `a.trustMap.get(b.id) || 0` over
both directed member-pair sets, divide by the number of summed links, and
default to 0 when there are none. -/
def groupAvgTrust (agents : List Agent) (g1 g2 : String) : ℚ :=
  let m1 := agents.filter (fun a => decide (a.affiliation = g1))
  let m2 := agents.filter (fun a => decide (a.affiliation = g2))
  let count : Nat := m1.length * m2.length + m2.length * m1.length
  let trustSum := pairTrustSum m1 m2 + pairTrustSum m2 m1
  if count > 0 then trustSum / (count : ℚ) else 0

/-- The hostile-pair classification of updateGroupDynamics (sketch.js):
partition agents by affiliation, and for every unordered pair of distinct
groups compute the pooled average trust; a pair whose average falls below
the hostility threshold 0.5 contributes its sorted joined key to the
hostilePairs set.  (The merge planning of the same loop touches only
affiliations and colours, not this set.) -/
def computeHostilePairs (agents : List Agent) : List String :=
  (distinctPairs (firstDedup (agents.map (fun a => a.affiliation)))).filterMap (fun p =>
    if groupAvgTrust agents p.1 p.2 < 1/2 then some (sortKey p.1 p.2) else none)

/-- A group label is pipe-free when it does not contain the bar character
used by the `sortKey` encoding. -/
def pipeFree (g : String) : Prop := '|' ∉ g.data

instance (g : String) : Decidable (pipeFree g) :=
  inferInstanceAs (Decidable ('|' ∉ g.data))

/-- The death pass of evolveGeneration (sketch.js): each agent dies when a
uniform draw falls below `baseRate + min(internalConflict ×
conflictWeight, 0.1) + (age > ageThreshold ? oldAgeBoost × (age −
ageThreshold) : 0)`; survivors are kept in order. -/
def deathChance (cfg : Config) (generation : Nat) (a : Agent) : ℚ :=
  let age : Nat := generation - a.birthGeneration
  let conflictPenalty : ℚ := min ((a.internalConflict : ℚ) * cfg.conflictWeight) (1/10)
  let oldBoost : ℚ := if age > cfg.ageThreshold
    then cfg.oldAgeBoost * ((age - cfg.ageThreshold : Nat) : ℚ) else 0
  cfg.baseRate + conflictPenalty + oldBoost

/-- The survivor filter driven by `deathChance` and one uniform draw per
agent. -/
def deathPass (cfg : Config) (generation : Nat) (rs : Nat → ℚ) :
    List Agent → Nat → List Agent
  | [], _ => []
  | a :: rest, i =>
    if rs i < deathChance cfg generation a then deathPass cfg generation rs rest (i + 1)
    else a :: deathPass cfg generation rs rest (i + 1)

/-- The random draws consumed when one parent reproduces: the reproduction
roll, per-norm inheritance and fresh-acknowledgment rolls, the preference
roll and fallback index, the momentum jitter, and the child's spawn
position (Agent constructor). -/
structure RepDraw where
  reproR : ℚ
  ackInheritR : String → ℚ
  ackFreshR : String → ℚ
  prefR : ℚ
  prefIdx : Nat
  momJitter : ℚ
  childPos : ℚ × ℚ
deriving Inhabited

/-- Child creation inside the reproduction loop of evolveGeneration
(sketch.js): a fresh Agent whose acknowledgments are inherited with
probability `1 − mutationRate` (mutationRate = mutationBase +
maxConflictMutation × parent conflict) and otherwise re-randomised, whose
preference is inherited with probability `preferenceInheritance`, whose
scenarioGroup and affiliation are copied, and whose cultural momentum is
the parent's with jitter constrained to [0.1, 1.0]. -/
def mkChild (cfg : Config) (generation childId : Nat) (parent : Agent) (d : RepDraw) : Agent :=
  let mutationRate := cfg.mutationBase + cfg.maxConflictMutation * (parent.internalConflict : ℚ)
  let acks := cfg.normTypes.map (fun n =>
    (n, if d.ackInheritR n < 1 - mutationRate then getAck parent n
        else decide (d.ackFreshR n > 1/2)))
  let pref := if d.prefR < cfg.preferenceInheritance then parent.normPreference
              else pick cfg.normTypes d.prefIdx "legal"
  let momentum := max (min (parent.culturalMomentum + d.momJitter) 1) (1/10)
  { id := childId
    pos := d.childPos
    acknowledges := acks
    normPreference := pref
    scenarioGroup := parent.scenarioGroup
    affiliation := parent.affiliation
    trustMap := []
    relationalLedger := []
    obligationAttempts := 0
    obligationSuccesses := 0
    internalConflict := 0
    contradictionDebt := 0
    culturalMomentum := momentum
    birthGeneration := generation }

/-- The reproduction loop of evolveGeneration (sketch.js): every surviving
parent may create one child while `agents.length + offspring.length`
stays below the hard cap `numAgents × 10`; the parent list is fixed for
the whole loop and the offspring are appended only afterwards. -/
def reproductionAux (cfg : Config) (generation : Nat) (parentsLen : Nat)
    (ds : Nat → RepDraw) (nextId : Nat) :
    List Agent → Nat → List Agent → List Agent
  | [], _, acc => acc
  | parent :: rest, i, acc =>
    if (ds i).reproR < cfg.reproductionChance ∧
        parentsLen + acc.length < cfg.numAgents * 10 then
      reproductionAux cfg generation parentsLen ds (nextId + 1) rest (i + 1)
        (acc ++ [mkChild cfg generation (nextId + i) parent (ds i)])
    else
      reproductionAux cfg generation parentsLen ds nextId rest (i + 1) acc

/-- Reproduction over a whole parent population: the offspring list built
by `reproductionAux` is concatenated after the parents. -/
def reproductionPass (cfg : Config) (generation : Nat) (ds : Nat → RepDraw)
    (nextId : Nat) (parents : List Agent) : List Agent :=
  parents ++ reproductionAux cfg generation parents.length ds nextId parents 0 []

/-- The random inputs one generation boundary consumes for the
population-dynamics passes. -/
structure GenInput where
  deathRs : Nat → ℚ
  repDs : Nat → RepDraw
deriving Inhabited

/-- The population-dynamics portion of evolveGeneration (sketch.js): the
death filter, the ledger-derived conflict/debt recomputation of the
survivors, and the reproduction loop.  The passes in between (obligation
regeneration, normative drift, affiliation and group updates, logging,
moral repair on ledgers) mutate other state components and never change
the population list; they are embedded separately. -/
def evolveGenerationPopulation (cfg : Config) (generation : Nat) (inp : GenInput)
    (nextId : Nat) (agents : List Agent) : List Agent :=
  let survivors := deathPass cfg generation inp.deathRs agents 0
  let survivors2 := survivors.map Agent.updateConflictAndDebt
  reproductionPass cfg (generation + 1) inp.repDs nextId survivors2

/-- Iterated generation boundaries: fold the population-dynamics step over
a list of per-generation random inputs. -/
def simulatePopulation (cfg : Config) (agents : List Agent) :
    List (Nat × Nat × GenInput) → List Agent
  | [] => agents
  | (generation, nextId, inp) :: rest =>
      simulatePopulation cfg (evolveGenerationPopulation cfg generation inp nextId agents) rest

/-- One generation metrics record of logGeneration (exporter.js). -/
structure GenEntry where
  generation : Nat
  avgConflict : ℚ
  avgDebt : ℚ
  totalObligationsIssued : Nat
  totalFulfilled : Nat
  totalDenied : Nat
  totalExpired : Nat
  totalRepaired : Nat
  fulfillmentRate : ℚ
  avgRI : ℚ
  repairEvents : Nat
  emergentNorms : Nat
deriving DecidableEq, Repr

/-- Count of ledger entries with the given status. -/
def countStatus (l : List (Nat × Status)) (st : Status) : Nat :=
  (l.filter (fun e => decide (e.2 = st))).length

/-- Whether a ledger entry of an agent crosses affiliations: its target id
resolves to a live agent and both affiliations are nonempty (truthy) and
different. -/
def isCross (agents : List Agent) (a : Agent) (e : Nat × Status) : Bool :=
  match agents.find? (fun b => decide (b.id = e.1)) with
  | some tgt =>
      decide (a.affiliation ≠ "") && decide (tgt.affiliation ≠ "") &&
      decide (a.affiliation ≠ tgt.affiliation)
  | none => false

/-- Sum of ledger sizes over the population (`totalObligationsIssued`). -/
def totalIssued (agents : List Agent) : Nat :=
  (agents.map (fun a => a.relationalLedger.length)).sum

/-- Sum of per-status ledger counts over the population. -/
def totalOf (agents : List Agent) (st : Status) : Nat :=
  (agents.map (fun a => countStatus a.relationalLedger st)).sum

/-- logGeneration (exporter.js): sum ledger sizes and per-status counts
over the live population, derive `fulfillmentRate =
totalFulfilled / totalObligationsIssued` (0 when the denominator is 0),
`avgRI = totalFulfilled / (totalFulfilled + totalDenied + totalExpired)`
(0 when the denominator is 0), the average debt proxy, the cross-group
denial share, and the count of distinct nonempty affiliations. -/
def logGeneration (agents : List Agent) (generation : Nat) : GenEntry :=
  let totalDebt := (agents.map (fun a =>
    countStatus a.relationalLedger .denied + countStatus a.relationalLedger .expired)).sum
  let interTotal := (agents.map (fun a =>
    (a.relationalLedger.filter (isCross agents a)).length)).sum
  let interDenied := (agents.map (fun a =>
    (a.relationalLedger.filter (fun e =>
      isCross agents a e && (decide (e.2 = Status.denied) || decide (e.2 = Status.expired)))).length)).sum
  { generation := generation
    avgConflict := if interTotal > 0 then (interDenied : ℚ) / (interTotal : ℚ) else 0
    avgDebt := if agents.length > 0 then (totalDebt : ℚ) / (agents.length : ℚ) else 0
    totalObligationsIssued := totalIssued agents
    totalFulfilled := totalOf agents .fulfilled
    totalDenied := totalOf agents .denied
    totalExpired := totalOf agents .expired
    totalRepaired := totalOf agents .repaired
    fulfillmentRate := if totalIssued agents > 0
      then (totalOf agents .fulfilled : ℚ) / (totalIssued agents : ℚ) else 0
    avgRI := if totalOf agents .fulfilled + totalOf agents .denied + totalOf agents .expired > 0
      then (totalOf agents .fulfilled : ℚ) /
        ((totalOf agents .fulfilled + totalOf agents .denied + totalOf agents .expired : Nat) : ℚ)
      else 0
    repairEvents := totalOf agents .repaired
    emergentNorms := (firstDedup ((agents.filter
      (fun a => decide (a.affiliation ≠ ""))).map (fun a => a.affiliation))).length }

/-- The vector carried by a defaultEnforce outcome. -/
def DEOutcome.vecOf : DEOutcome → ObligationVector
  | .ok v _ _ _ _ => v
  | .thrown v _ _ _ => v

/-!  Helper lemmas shared by several of the claim theorems below. -/

/-- Looking up the key just written by `setS` yields the written value. -/
theorem lookupS_setS_self {α : Type} (l : List (String × α)) (k : String) (v : α) :
    lookupS (setS l k v) k = some v := by
  induction l with
  | nil => simp [setS, lookupS]
  | cons hd tl ih =>
      obtain ⟨k1, v1⟩ := hd
      by_cases h : k1 = k
      · subst h; simp [setS, lookupS]
      · simp [setS, lookupS, h, ih]

/-- A status count of a ledger never exceeds the ledger size. -/
theorem countStatus_le_length (l : List (Nat × Status)) (st : Status) :
    countStatus l st ≤ l.length :=
  List.length_filter_le _ _

/-- The total of any one status never exceeds the total number of ledger
entries across the population. -/
theorem totalOf_le_totalIssued (agents : List Agent) (st : Status) :
    totalOf agents st ≤ totalIssued agents := by
  unfold totalOf totalIssued
  induction agents with
  | nil => simp
  | cons a rest ih =>
      simp only [List.map_cons, List.sum_cons]
      exact Nat.add_le_add (countStatus_le_length _ _) ih

/-- C10: if the population contains fewer than two agents,
generateObligations returns immediately with an empty vector set, so no
obligation (in particular no self-obligation) is created for a
population of size zero or one. -/
theorem C10_small_population (cfg : Config) (agents : List Agent)
    (hostilePairs : List String) (draws : List Draw)
    (h : agents.length < 2) :
    generateObligations cfg agents hostilePairs draws = [] := by
  simp [generateObligations, h]

/-- Witness for C10 at the empty population. -/
theorem C10_small_population_witness :
    ([] : List Agent).length < 2 ∧
      generateObligations SIM_CONFIG [] [] [] = [] :=
  ⟨by decide, C10_small_population SIM_CONFIG [] [] [] (by decide)⟩

/-- A norm definition distinct from every built-in entry. -/
def replacementSpec : NormDef := ⟨[1, 2, 3], "custom"⟩

/-- C2 counterexample: "legal" is already present in the registry, yet
registering it again is not a no-op — the stored definition changes to
the new spec instead of being retained. -/
theorem C2_counterexample :
    (lookupS normRegistry "legal").isSome = true ∧
    lookupS (registerNorm "legal" replacementSpec normRegistry) "legal" ≠
      lookupS normRegistry "legal" := by decide

/-- C2 amended: registering a name already present in the registry
overwrites the entry — afterwards the registry maps that name to the new
definition (last write wins), for every registry and name. -/
theorem C2_register_overwrites (reg : List (String × NormDef)) (name : String)
    (spec : NormDef) :
    lookupS (registerNorm name spec reg) name = some spec :=
  lookupS_setS_self reg name spec

/-- C8: when the source or target reference of a vector is missing, the
null guard of ObligationVector.enforce returns immediately, so the
vector (status, age, both embedded agents with their ledgers and trust
maps) and the obligation log are all left unchanged. -/
theorem C8_null_endpoint_noop (cfg : Config) (reg : List (String × NormDef))
    (generation frameCount : Nat) (r : ℚ) (v : ObligationVector) (log : List LogEntry)
    (h : v.source = none ∨ v.target = none) :
    ObligationVector.enforce cfg reg generation frameCount r v log =
      EnforceOutcome.ok v log := by
  rcases h with h | h
  · simp only [ObligationVector.enforce, h]
  · cases hs : v.source with
    | none => simp only [ObligationVector.enforce, hs]
    | some s => simp only [ObligationVector.enforce, hs, h]

/-- A vector with a missing source reference. -/
def orphanVec : ObligationVector :=
  { source := none, target := some defaultAgent, strength := mkRat 1 2, norm := "legal",
    normType := none, expiration := none, status := Status.pending, age := 0,
    maxAge := 10, animT := 0, animSpeed := mkRat 7 200, spawnFrame := 0,
    resolveOnArrival := true, fulfilled := false }

/-- Witness for C8 at a concrete vector with a null source. -/
theorem C8_null_endpoint_noop_witness :
    (orphanVec.source = none ∨ orphanVec.target = none) ∧
    ObligationVector.enforce SIM_CONFIG normRegistry 0 0 0 orphanVec [] =
      EnforceOutcome.ok orphanVec [] :=
  ⟨Or.inl rfl,
    C8_null_endpoint_noop SIM_CONFIG normRegistry 0 0 0 orphanVec [] (Or.inl rfl)⟩

/-- C7: in every generation metrics record, fulfillmentRate and avgRI
(the relational-integrity field) lie in [0,1], and they equal
`totalFulfilled / totalObligationsIssued` and
`totalFulfilled / (totalFulfilled + totalDenied + totalExpired)` with 0
substituted when the respective denominator is 0. -/
theorem C7_bounded_rates (agents : List Agent) (generation : Nat) :
    (0 ≤ (logGeneration agents generation).fulfillmentRate ∧
      (logGeneration agents generation).fulfillmentRate ≤ 1) ∧
    (0 ≤ (logGeneration agents generation).avgRI ∧
      (logGeneration agents generation).avgRI ≤ 1) ∧
    (logGeneration agents generation).fulfillmentRate =
      (if (logGeneration agents generation).totalObligationsIssued = 0 then 0
       else ((logGeneration agents generation).totalFulfilled : ℚ) /
         ((logGeneration agents generation).totalObligationsIssued : ℚ)) ∧
    (logGeneration agents generation).avgRI =
      (if (logGeneration agents generation).totalFulfilled +
          (logGeneration agents generation).totalDenied +
          (logGeneration agents generation).totalExpired = 0 then 0
       else ((logGeneration agents generation).totalFulfilled : ℚ) /
         (((logGeneration agents generation).totalFulfilled +
           (logGeneration agents generation).totalDenied +
           (logGeneration agents generation).totalExpired : Nat) : ℚ)) := by
  have hle : totalOf agents .fulfilled ≤ totalIssued agents :=
    totalOf_le_totalIssued agents .fulfilled
  have hle2 : totalOf agents .fulfilled ≤
      totalOf agents .fulfilled + totalOf agents .denied + totalOf agents .expired := by
    omega
  refine ⟨⟨?_, ?_⟩, ⟨?_, ?_⟩, ?_, ?_⟩
  · simp only [logGeneration]
    split
    · positivity
    · exact le_refl 0
  · simp only [logGeneration]
    split
    · exact div_le_one_of_le₀ (by exact_mod_cast hle) (by positivity)
    · exact zero_le_one
  · simp only [logGeneration]
    split
    · positivity
    · exact le_refl 0
  · simp only [logGeneration]
    split
    · exact div_le_one_of_le₀ (by exact_mod_cast hle2) (by positivity)
    · exact zero_le_one
  · simp only [logGeneration]
    rcases Nat.eq_zero_or_pos (totalIssued agents) with h | h
    · simp [h]
    · simp [h, Nat.not_eq_zero_of_lt h]
  · simp only [logGeneration]
    rcases Nat.eq_zero_or_pos
        (totalOf agents .fulfilled + totalOf agents .denied + totalOf agents .expired) with h | h
    · simp [h]
    · simp [h, Nat.not_eq_zero_of_lt h]

/-- A uniform pick from a nonempty list is a member of the list. -/
theorem pick_mem {α : Type} (l : List α) (i : Nat) (d : α) (h : l ≠ []) :
    pick l i d ∈ l := by
  have hlen : i % l.length < l.length := Nat.mod_lt _ (List.length_pos.mpr h)
  unfold pick
  rw [List.getD_eq_getElem l d hlen]
  exact List.getElem_mem hlen

/-- Every eligible target is a live agent distinct from the source, within
the proximity threshold, and not in a hostile affiliation pair with the
source. -/
theorem mem_eligibleTargets {cfg : Config} {agents : List Agent} {hp : List String}
    {source a : Agent} (h : a ∈ eligibleTargets cfg agents hp source) :
    a ∈ agents ∧ a.id ≠ source.id ∧
      withinDist a.pos source.pos cfg.proximityThreshold = true ∧
      sortKey source.affiliation a.affiliation ∉ hp := by
  unfold eligibleTargets at h
  simp only [List.mem_filter, Bool.and_eq_true, decide_eq_true_eq, Bool.not_eq_true',
    decide_eq_false_iff_not] at h
  tauto

/-- Each loop iteration of generateObligations contributes at most one
vector. -/
theorem genDraws_length_le (cfg : Config) (agents : List Agent) (hp : List String) :
    ∀ ds : List Draw, (genDraws cfg agents hp ds).length ≤ ds.length := by
  intro ds
  induction ds with
  | nil => simp [genDraws]
  | cons d rest ih =>
      simp only [genDraws]
      split
      · exact Nat.le_succ_of_le ih
      · simpa using ih

/-- Every vector produced by the generateObligations loop joins a live
source to a distinct live target within the proximity threshold whose
affiliation pair is not hostile, and starts pending. -/
theorem genDraws_mem_spec (cfg : Config) (agents : List Agent) (hp : List String) :
    ∀ (ds : List Draw) (v : ObligationVector), v ∈ genDraws cfg agents hp ds →
      ∃ s t : Agent, v.source = some s ∧ v.target = some t ∧
        s ∈ agents ∧ t ∈ agents ∧ t.id ≠ s.id ∧
        withinDist t.pos s.pos cfg.proximityThreshold = true ∧
        sortKey s.affiliation t.affiliation ∉ hp ∧ v.status = Status.pending := by
  intro ds
  induction ds with
  | nil =>
      intro v hv
      rw [show genDraws cfg agents hp [] = [] from rfl] at hv
      exact absurd hv (List.not_mem_nil v)
  | cons d rest ih =>
      intro v hv
      simp only [genDraws] at hv
      by_cases hsplit :
          (eligibleTargets cfg agents hp (pick agents d.srcIdx defaultAgent)).isEmpty = true
      · rw [if_pos hsplit] at hv
        exact ih v hv
      · rw [if_neg hsplit] at hv
        rcases List.mem_cons.mp hv with hv | hv
        · have hne : eligibleTargets cfg agents hp (pick agents d.srcIdx defaultAgent) ≠ [] := by
            intro hnil
            rw [hnil] at hsplit
            exact hsplit rfl
          have htmem := pick_mem _ d.tgtIdx defaultAgent hne
          have hfacts := mem_eligibleTargets htmem
          have hagents : agents ≠ [] := List.ne_nil_of_mem hfacts.1
          have hsmem := pick_mem agents d.srcIdx defaultAgent hagents
          subst hv
          exact ⟨pick agents d.srcIdx defaultAgent,
            pick (eligibleTargets cfg agents hp (pick agents d.srcIdx defaultAgent))
              d.tgtIdx defaultAgent,
            rfl, rfl, hsmem, hfacts.1, hfacts.2.1, hfacts.2.2.1, hfacts.2.2.2, rfl⟩
        · exact ih v hv

/-- C5: each generation the obligation vectors are regenerated from at
most `min(populationSize × countMultiplier, maxVectors)` draws, and every
vector produced has a live source, a distinct live target within the
proximity threshold, and source/target affiliations that do not form a
currently-hostile pair; draws with no eligible target contribute nothing
(no retry). -/
theorem C5_generation_respects_hostility (cfg : Config) (agents : List Agent)
    (hostilePairs : List String) (draws : List Draw) :
    (generateObligations cfg agents hostilePairs draws).length ≤
      min (agents.length * cfg.countMultiplier) cfg.maxVectors ∧
    ∀ v ∈ generateObligations cfg agents hostilePairs draws,
      ∃ s t : Agent, v.source = some s ∧ v.target = some t ∧
        s ∈ agents ∧ t ∈ agents ∧ t.id ≠ s.id ∧
        withinDist t.pos s.pos cfg.proximityThreshold = true ∧
        sortKey s.affiliation t.affiliation ∉ hostilePairs ∧
        v.status = Status.pending := by
  unfold generateObligations
  by_cases h2 : agents.length < 2
  · simp [h2]
  · simp only [h2, if_false]
    constructor
    · calc (genDraws cfg agents hostilePairs
            (draws.take (min (agents.length * cfg.countMultiplier) cfg.maxVectors))).length
          ≤ (draws.take (min (agents.length * cfg.countMultiplier) cfg.maxVectors)).length :=
            genDraws_length_le cfg agents hostilePairs _
        _ ≤ min (agents.length * cfg.countMultiplier) cfg.maxVectors :=
            List.length_take_le _ _
    · intro v hv
      exact genDraws_mem_spec cfg agents hostilePairs _ v hv

/-- The death filter can only shrink the population. -/
theorem deathPass_length_le (cfg : Config) (generation : Nat) (rs : Nat → ℚ) :
    ∀ (l : List Agent) (i : Nat), (deathPass cfg generation rs l i).length ≤ l.length := by
  intro l
  induction l with
  | nil => intro i; simp [deathPass]
  | cons a rest ih =>
      intro i
      simp only [deathPass]
      split
      · exact Nat.le_succ_of_le (ih (i + 1))
      · simpa using ih (i + 1)

/-- The reproduction loop preserves the cap invariant: as long as the
fixed parent count plus the offspring created so far stays within
`numAgents × 10`, it still does after processing any remaining parents,
because each child is created only under the guard
`agents.length + offspring.length < numAgents * 10`. -/
theorem reproductionAux_cap (cfg : Config) (generation parentsLen : Nat)
    (ds : Nat → RepDraw) :
    ∀ (todo : List Agent) (nextId i : Nat) (acc : List Agent),
      parentsLen + acc.length ≤ cfg.numAgents * 10 →
      parentsLen + (reproductionAux cfg generation parentsLen ds nextId todo i acc).length ≤
        cfg.numAgents * 10 := by
  intro todo
  induction todo with
  | nil => intro nextId i acc h; simpa [reproductionAux] using h
  | cons parent rest ih =>
      intro nextId i acc h
      simp only [reproductionAux]
      split
      · rename_i hcond
        apply ih
        simp only [List.length_append, List.length_cons, List.length_nil]
        omega
      · exact ih _ _ _ h

/-- The whole reproduction pass keeps the population within the cap when
the surviving parents already are. -/
theorem reproductionPass_cap (cfg : Config) (generation : Nat) (ds : Nat → RepDraw)
    (nextId : Nat) (parents : List Agent)
    (hp : parents.length ≤ cfg.numAgents * 10) :
    (reproductionPass cfg generation ds nextId parents).length ≤ cfg.numAgents * 10 := by
  unfold reproductionPass
  rw [List.length_append]
  exact reproductionAux_cap cfg generation parents.length ds parents nextId 0 []
    (by simpa using hp)

/-- One generation boundary (death, conflict recomputation, reproduction)
preserves the population cap. -/
theorem evolveGenerationPopulation_cap (cfg : Config) (generation : Nat) (inp : GenInput)
    (nextId : Nat) (agents : List Agent)
    (h : agents.length ≤ cfg.numAgents * 10) :
    (evolveGenerationPopulation cfg generation inp nextId agents).length ≤
      cfg.numAgents * 10 := by
  unfold evolveGenerationPopulation
  apply reproductionPass_cap
  calc ((deathPass cfg generation inp.deathRs agents 0).map Agent.updateConflictAndDebt).length
      = (deathPass cfg generation inp.deathRs agents 0).length := List.length_map _ _
    _ ≤ agents.length := deathPass_length_le cfg generation inp.deathRs agents 0
    _ ≤ cfg.numAgents * 10 := h

/-- C6: across any number of generation boundaries the population never
exceeds `numAgents × 10` once it starts within that cap (the initial
population has `numAgents` members), because a child is created only
while the parent count plus the offspring already created this
generation is below the cap; and the offspring are appended only after
all parents have been evaluated. -/
theorem C6_population_cap (cfg : Config) (agents : List Agent)
    (steps : List (Nat × Nat × GenInput))
    (h : agents.length ≤ cfg.numAgents * 10) :
    (simulatePopulation cfg agents steps).length ≤ cfg.numAgents * 10 ∧
    ∀ (generation nextId : Nat) (ds : Nat → RepDraw) (parents : List Agent),
      ∃ offspring : List Agent,
        reproductionPass cfg generation ds nextId parents = parents ++ offspring := by
  constructor
  · induction steps generalizing agents with
    | nil => simpa [simulatePopulation] using h
    | cons s rest ih =>
        obtain ⟨generation, nextId, inp⟩ := s
        simp only [simulatePopulation]
        exact ih _ (evolveGenerationPopulation_cap cfg generation inp nextId agents h)
  · intro generation nextId ds parents
    exact ⟨_, rfl⟩

/-- A concrete generation input used by the C6 witness. -/
def genInput0 : GenInput := ⟨fun _ => 1, fun _ => default⟩

/-- Witness for C6 at a concrete one-agent population and one boundary. -/
theorem C6_population_cap_witness :
    ([defaultAgent].length ≤ SIM_CONFIG.numAgents * 10) ∧
    (simulatePopulation SIM_CONFIG [defaultAgent] [(0, 1000, genInput0)]).length ≤
      SIM_CONFIG.numAgents * 10 :=
  ⟨by decide,
    (C6_population_cap SIM_CONFIG [defaultAgent] [(0, 1000, genInput0)] (by decide)).1⟩

/-- defaultEnforce never changes the vector's status field (it resolves
through the ledger and the `fulfilled` flag only). -/
theorem defaultEnforce_status (cfg : Config) (reg : List (String × NormDef))
    (generation : Nat) (vec : ObligationVector) (s t : Agent) (log : List LogEntry) :
    (defaultEnforce cfg reg generation vec s t log).vecOf.status = vec.status := by
  unfold defaultEnforce
  dsimp only
  cases lookupS reg (vec.normType.getD "undefined") with
  | none => rfl
  | some nd =>
      dsimp only
      repeat' split
      all_goals rfl

/-- The resolution tail always sets exactly the status it is given. -/
theorem finishResolution_status (cfg : Config) (generation : Nat) (v : ObligationVector)
    (s t : Agent) (log : List LogEntry) (st : Status) :
    (finishResolution cfg generation v s t log st).vecOf.status = st := by
  unfold finishResolution
  split <;> rfl

/-- Advancing the animation leaves the status untouched. -/
theorem stepAnimation_status (v : ObligationVector) (frameCount : Nat) :
    (stepAnimation v frameCount).status = v.status := by
  unfold stepAnimation
  split <;> rfl

/-- The post-gate enforcement body either keeps the status or resolves it
to fulfilled, denied or pending — never to repaired or expired. -/
theorem enforceCore_status_cases (cfg : Config) (reg : List (String × NormDef))
    (generation : Nat) (r : ℚ) (v : ObligationVector) (s t : Agent) (log : List LogEntry) :
    (enforceCore cfg reg generation r v s t log).vecOf.status = v.status ∨
    (enforceCore cfg reg generation r v s t log).vecOf.status = Status.fulfilled ∨
    (enforceCore cfg reg generation r v s t log).vecOf.status = Status.denied ∨
    (enforceCore cfg reg generation r v s t log).vecOf.status = Status.pending := by
  unfold enforceCore
  cases h : defaultEnforce cfg reg generation v s t log with
  | thrown v1 s1 t1 log1 =>
      left
      have h2 := defaultEnforce_status cfg reg generation v s t log
      rw [h] at h2
      simpa [EnforceOutcome.vecOf, DEOutcome.vecOf] using h2
  | ok v1 s1 t1 log1 res =>
      rcases res with _ | st
      · rw [finishResolution_status]
        repeat' split
        all_goals first
          | (right; left; rfl)
          | (right; right; left; rfl)
      · cases st with
        | pending => right; right; right; exact finishResolution_status _ _ _ _ _ _ _
        | fulfilled => right; left; exact finishResolution_status _ _ _ _ _ _ _
        | denied => right; right; left; exact finishResolution_status _ _ _ _ _ _ _
        | expired =>
            rw [finishResolution_status]
            repeat' split
            all_goals first
              | (right; left; rfl)
              | (right; right; left; rfl)
        | repaired =>
            rw [finishResolution_status]
            repeat' split
            all_goals first
              | (right; left; rfl)
              | (right; right; left; rfl)

/-- The enforce body with both references present either leaves the
status unchanged or resolves a pending vector to fulfilled, denied or
expired — never to repaired. -/
theorem enforcePresent_status_cases (cfg : Config) (reg : List (String × NormDef))
    (generation frameCount : Nat) (r : ℚ) (v : ObligationVector) (s t : Agent)
    (log : List LogEntry) :
    (enforcePresent cfg reg generation frameCount r v s t log).vecOf.status = v.status ∨
    (enforcePresent cfg reg generation frameCount r v s t log).vecOf.status =
      Status.fulfilled ∨
    (enforcePresent cfg reg generation frameCount r v s t log).vecOf.status =
      Status.denied ∨
    (enforcePresent cfg reg generation frameCount r v s t log).vecOf.status =
      Status.expired := by
  unfold enforcePresent
  by_cases hp : v.status = Status.pending
  · simp only [if_pos hp]
    split
    · right; right; right; rfl
    · split
      · left
        exact stepAnimation_status { v with age := v.age + 1 } frameCount
      · rcases enforceCore_status_cases cfg reg generation r
            (stepAnimation { v with age := v.age + 1 } frameCount) s t log with
          h | h | h | h
        · left
          rw [h, stepAnimation_status]
        · right; left; exact h
        · right; right; left; exact h
        · left; rw [h, hp]
  · simp only [if_neg hp]; left; rfl

/-- C1 amended: vector status transitions are one-directional — a
non-pending vector is left entirely unchanged by enforcement, a pending
vector can only stay pending or move to fulfilled, denied or expired
(never to repaired), and the generation-boundary moral-repair pass
changes ledger entries only from 'denied' or 'expired' to 'repaired'.
(A ledger entry, unlike a vector, can be overwritten out of 'fulfilled'
or 'repaired' by a later obligation between the same pair — see the
counterexample.) -/
theorem C1_status_transitions (cfg : Config) (reg : List (String × NormDef))
    (generation frameCount : Nat) (r : ℚ) (v : ObligationVector) (log : List LogEntry) :
    (v.status ≠ Status.pending →
      ObligationVector.enforce cfg reg generation frameCount r v log =
        EnforceOutcome.ok v log) ∧
    ((ObligationVector.enforce cfg reg generation frameCount r v log).vecOf.status = v.status ∨
      (ObligationVector.enforce cfg reg generation frameCount r v log).vecOf.status =
        Status.fulfilled ∨
      (ObligationVector.enforce cfg reg generation frameCount r v log).vecOf.status =
        Status.denied ∨
      (ObligationVector.enforce cfg reg generation frameCount r v log).vecOf.status =
        Status.expired) ∧
    (∀ (cfg2 : Config) (gen2 aid idx : Nat) (rs : Nat → ℚ) (ledger : List (Nat × Status))
        (tid : Nat) (st2 : Status),
      lookupA (moralRepairLedger cfg2 gen2 aid rs ledger idx).1 tid = some st2 →
      lookupA ledger tid = some st2 ∨
        (st2 = Status.repaired ∧
          (lookupA ledger tid = some Status.denied ∨
            lookupA ledger tid = some Status.expired))) := by
  refine ⟨?_, ?_, ?_⟩
  · intro hnp
    unfold ObligationVector.enforce
    cases hs : v.source with
    | none => rfl
    | some s =>
      cases ht : v.target with
      | none => rfl
      | some t =>
        show enforcePresent cfg reg generation frameCount r v s t log =
          EnforceOutcome.ok v log
        unfold enforcePresent
        simp only [if_neg hnp]
  · unfold ObligationVector.enforce
    cases hs : v.source with
    | none => left; rfl
    | some s =>
      cases ht : v.target with
      | none => left; rfl
      | some t =>
        exact enforcePresent_status_cases cfg reg generation frameCount r v s t log
  · intro cfg2 gen2 aid idx rs ledger
    induction ledger generalizing idx with
    | nil =>
        intro tid st2 h
        simp [moralRepairLedger, lookupA] at h
    | cons e rest ih =>
        obtain ⟨k, st⟩ := e
        intro tid st2 h
        simp only [moralRepairLedger] at h
        by_cases hds : st = Status.denied ∨ st = Status.expired
        · rw [if_pos hds] at h
          by_cases hr : rs idx < cfg2.repairChance
          · rw [if_pos hr] at h
            simp only [lookupA] at h ⊢
            by_cases hk : k = tid
            · rw [if_pos hk] at h ⊢
              right
              refine ⟨by injection h with h2; exact h2.symm, ?_⟩
              rcases hds with hds | hds
              · left; rw [hds]
              · right; rw [hds]
            · rw [if_neg hk] at h ⊢
              exact ih (idx + 1) tid st2 h
          · rw [if_neg hr] at h
            simp only [lookupA] at h ⊢
            by_cases hk : k = tid
            · rw [if_pos hk] at h ⊢
              left; exact h
            · rw [if_neg hk] at h ⊢
              exact ih (idx + 1) tid st2 h
        · rw [if_neg hds] at h
          simp only [lookupA] at h ⊢
          by_cases hk : k = tid
          · rw [if_pos hk] at h ⊢
            left; exact h
          · rw [if_neg hk] at h ⊢
            exact ih idx tid st2 h

/-- A concrete fulfilled vector for the C1 witness. -/
def vFulfilled : ObligationVector :=
  { source := some defaultAgent, target := some defaultAgent, strength := mkRat 1 2,
    norm := "legal", normType := none, expiration := none, status := Status.fulfilled,
    age := 3, maxAge := 10, animT := 1, animSpeed := mkRat 7 200, spawnFrame := 0,
    resolveOnArrival := true, fulfilled := true }

/-- Witness for C1 at a concrete non-pending vector. -/
theorem C1_status_transitions_witness :
    (vFulfilled.status ≠ Status.pending) ∧
    ObligationVector.enforce SIM_CONFIG normRegistry 0 0 0 vFulfilled [] =
      EnforceOutcome.ok vFulfilled [] :=
  ⟨by decide,
    (C1_status_transitions SIM_CONFIG normRegistry 0 0 0 vFulfilled []).1 (by decide)⟩

/-- The source agent of the C1 counterexample: its ledger entry for agent 1
is 'repaired'. -/
def cexSourceAgent : Agent :=
  { defaultAgent with id := 0, relationalLedger := [(1, Status.repaired)] }

/-- The target agent of the C1 counterexample. -/
def cexTargetAgent : Agent := { defaultAgent with id := 1 }

/-- A fresh pending obligation between the same pair, about to expire. -/
def cexVec : ObligationVector :=
  { source := some cexSourceAgent, target := some cexTargetAgent, strength := mkRat 1 2,
    norm := "legal", normType := none, expiration := none, status := Status.pending,
    age := 10, maxAge := 10, animT := 0, animSpeed := mkRat 1 25, spawnFrame := 0,
    resolveOnArrival := true, fulfilled := false }

/-- C1 counterexample: a ledger entry does move out of 'repaired' — the
source's entry for the target is 'repaired', yet after one enforcement
of a later obligation between the same pair (which expires) the entry is
overwritten to 'expired'. -/
theorem C1_counterexample :
    lookupA cexVec.sourceLedger 1 = some Status.repaired ∧
    lookupA (ObligationVector.enforce SIM_CONFIG normRegistry 3 0 0 cexVec
      []).vecOf.sourceLedger 1 = some Status.expired := by decide

/-- Scenario A source: acknowledges the "legal" norm, at the origin. -/
def scnASource : Agent :=
  { defaultAgent with id := 0, pos := (0, 0), acknowledges := [("legal", true)] }

/-- Scenario A target: acknowledges the "legal" norm, 10 units away (well
within the proximity threshold 150). -/
def scnATarget : Agent :=
  { defaultAgent with id := 1, pos := (10, 0), acknowledges := [("legal", true)] }

/-- A pending "legal" obligation between the Scenario A agents whose
animation has arrived (animT = 1), so the resolution gate is open. -/
def scnAVec : ObligationVector :=
  { source := some scnASource, target := some scnATarget, strength := mkRat 1 2,
    norm := "legal", normType := none, expiration := none, status := Status.pending,
    age := 0, maxAge := 10, animT := 1, animSpeed := mkRat 7 200, spawnFrame := 5,
    resolveOnArrival := true, fulfilled := false }

/-- The same obligation at creation time (animT = 0), before arrival. -/
def scnAVecFresh : ObligationVector := { scnAVec with animT := 0 }

/-- C3 at the Scenario A failing input: the enforcement step does not
resolve the obligation to 'fulfilled' and does not touch either trust
map.  Once the arrival gate is open the norm policy dereferences
`normRegistry[vec.normType]` with `normType` undefined and throws a
TypeError (status still pending, no trust change, no log entry); and on
the very first step the arrival gate alone already prevents resolution. -/
theorem C3_scenarioA_code_behavior :
    (ObligationVector.enforce SIM_CONFIG normRegistry 0 0 0 scnAVec []).isThrown = true ∧
    (ObligationVector.enforce SIM_CONFIG normRegistry 0 0 0 scnAVec []).vecOf.status =
      Status.pending ∧
    (ObligationVector.enforce SIM_CONFIG normRegistry 0 0 0 scnAVec []).vecOf.sourceTrust = [] ∧
    (ObligationVector.enforce SIM_CONFIG normRegistry 0 0 0 scnAVec []).vecOf.targetTrust = [] ∧
    (ObligationVector.enforce SIM_CONFIG normRegistry 0 0 0 scnAVec []).logOf = [] ∧
    (ObligationVector.enforce SIM_CONFIG normRegistry 0 0 0 scnAVecFresh []).vecOf.status =
      Status.pending ∧
    (ObligationVector.enforce SIM_CONFIG normRegistry 0 0 0 scnAVecFresh []).isThrown =
      false := by decide

/-- Scenario B source: acknowledges the "care" norm. -/
def scnBSource : Agent :=
  { defaultAgent with id := 0, pos := (0, 0), acknowledges := [("care", true)] }

/-- Scenario B target: does not acknowledge the "care" norm. -/
def scnBTarget : Agent :=
  { defaultAgent with id := 1, pos := (10, 0), acknowledges := [("care", false)] }

/-- A pending "care" obligation between the Scenario B agents with the
arrival gate open. -/
def scnBVec : ObligationVector :=
  { source := some scnBSource, target := some scnBTarget, strength := mkRat 1 2,
    norm := "care", normType := none, expiration := none, status := Status.pending,
    age := 0, maxAge := 10, animT := 1, animSpeed := mkRat 7 200, spawnFrame := 5,
    resolveOnArrival := true, fulfilled := false }

/-- The same Scenario B obligation at creation time (animT = 0). -/
def scnBVecFresh : ObligationVector := { scnBVec with animT := 0 }

/-- C4 at the Scenario B failing input: the first enforcement step does
not set the ledger entry to 'denied' and appends no 'denied' log entry.
With the gate open the policy throws the same TypeError (no ledger
write, no log entry); on the very first step the arrival gate returns
before the policy runs at all. -/
theorem C4_scenarioB_code_behavior :
    (ObligationVector.enforce SIM_CONFIG normRegistry 0 0 0 scnBVec []).isThrown = true ∧
    (ObligationVector.enforce SIM_CONFIG normRegistry 0 0 0 scnBVec []).vecOf.sourceLedger =
      [] ∧
    (ObligationVector.enforce SIM_CONFIG normRegistry 0 0 0 scnBVec []).logOf = [] ∧
    (ObligationVector.enforce SIM_CONFIG normRegistry 0 0 0 scnBVecFresh []).vecOf.sourceLedger =
      [] ∧
    (ObligationVector.enforce SIM_CONFIG normRegistry 0 0 0 scnBVecFresh []).vecOf.status =
      Status.pending := by decide

/-- Splitting a list at a distinguished separator element is unambiguous
when the separator occurs in neither prefix. -/
theorem append_cons_sep_inj {α : Type} (c : α) :
    ∀ (xs xs' ys ys' : List α), c ∉ xs → c ∉ xs' →
      xs ++ c :: ys = xs' ++ c :: ys' → xs = xs' ∧ ys = ys' := by
  intro xs
  induction xs with
  | nil =>
      intro xs' ys ys' h1 h2 h3
      cases xs' with
      | nil => simpa using h3
      | cons x t =>
          simp only [List.nil_append, List.cons_append, List.cons.injEq] at h3
          rcases h3 with ⟨rfl, -⟩
          exact absurd (List.mem_cons_self c t) h2
  | cons x t ih =>
      intro xs' ys ys' h1 h2 h3
      cases xs' with
      | nil =>
          simp only [List.nil_append, List.cons_append, List.cons.injEq] at h3
          rcases h3 with ⟨rfl, -⟩
          exact absurd (List.mem_cons_self x t) h1
      | cons x' t' =>
          simp only [List.cons_append, List.cons.injEq] at h3
          obtain ⟨rfl, h4⟩ := h3
          have h5 := ih t' ys ys' (fun hm => h1 (List.mem_cons_of_mem _ hm))
            (fun hm => h2 (List.mem_cons_of_mem _ hm)) h4
          exact ⟨by rw [h5.1], h5.2⟩

/-- The bar-joined encoding of a pair of pipe-free strings is injective in
both components. -/
theorem pipe_encode_inj {a b c d : String} (ha : pipeFree a) (hc : pipeFree c)
    (h : a ++ "|" ++ b = c ++ "|" ++ d) : a = c ∧ b = d := by
  have hd : (a ++ "|" ++ b).data = (c ++ "|" ++ d).data := by rw [h]
  simp only [String.data_append] at hd
  rw [List.append_assoc, List.append_assoc, List.singleton_append,
    List.singleton_append] at hd
  obtain ⟨e1, e2⟩ := append_cons_sep_inj '|' a.data c.data b.data d.data ha hc hd
  constructor
  · cases a; cases c; congr
  · cases b; cases d; congr

/-- The key of an unordered pair with itself. -/
theorem sortKey_self (g : String) : sortKey g g = g ++ "|" ++ g := by
  unfold sortKey
  rw [if_pos (le_refl g)]

/-- Any sorted key is one of the two bar-joined orders. -/
theorem sortKey_eq_or (g1 g2 : String) :
    sortKey g1 g2 = g1 ++ "|" ++ g2 ∨ sortKey g1 g2 = g2 ++ "|" ++ g1 := by
  unfold sortKey
  split
  · left; rfl
  · right; rfl

/-- Elements of the first-occurrence dedup come from the original list. -/
theorem firstDedup_aux_sub (l : List String) :
    ∀ (acc : List String) (x : String),
      x ∈ l.foldl (fun acc g => if g ∈ acc then acc else acc ++ [g]) acc →
      x ∈ acc ∨ x ∈ l := by
  induction l with
  | nil => intro acc x h; left; simpa using h
  | cons g t ih =>
      intro acc x h
      rw [List.foldl_cons] at h
      rcases ih _ x h with h2 | h2
      · by_cases hg : g ∈ acc
        · rw [if_pos hg] at h2
          exact Or.inl h2
        · rw [if_neg hg] at h2
          rcases List.mem_append.mp h2 with h3 | h3
          · exact Or.inl h3
          · right
            rw [List.mem_singleton] at h3
            rw [h3]
            exact List.mem_cons_self g t
      · exact Or.inr (List.mem_cons_of_mem g h2)

/-- Elements of `firstDedup l` are elements of `l`. -/
theorem firstDedup_sub (l : List String) (x : String) (h : x ∈ firstDedup l) : x ∈ l := by
  rcases firstDedup_aux_sub l [] x h with h2 | h2
  · simp at h2
  · exact h2

/-- The fold underlying `firstDedup` preserves freedom from duplicates. -/
theorem firstDedup_aux_nodup (l : List String) :
    ∀ acc : List String, acc.Nodup →
      (l.foldl (fun acc g => if g ∈ acc then acc else acc ++ [g]) acc).Nodup := by
  induction l with
  | nil => intro acc h; simpa using h
  | cons g t ih =>
      intro acc h
      rw [List.foldl_cons]
      apply ih
      by_cases hg : g ∈ acc
      · rw [if_pos hg]; exact h
      · rw [if_neg hg]
        rw [List.nodup_append]
        refine ⟨h, List.nodup_singleton g, ?_⟩
        intro a ha hb
        rw [List.mem_singleton] at hb
        exact hg (hb ▸ ha)

/-- The groups list `firstDedup` builds has no duplicates. -/
theorem firstDedup_nodup (l : List String) : (firstDedup l).Nodup :=
  firstDedup_aux_nodup l [] List.nodup_nil

/-- Each pair produced by the nested loop comes from the list, and from a
duplicate-free list the two components differ. -/
theorem distinctPairs_mem {α : Type} : ∀ (l : List α) (p : α × α),
    p ∈ distinctPairs l → p.1 ∈ l ∧ p.2 ∈ l ∧ (l.Nodup → p.1 ≠ p.2) := by
  intro l
  induction l with
  | nil => intro p h; simp [distinctPairs] at h
  | cons g t ih =>
      intro p h
      simp only [distinctPairs, List.mem_append, List.mem_map] at h
      rcases h with ⟨b, hb, rfl⟩ | h
      · refine ⟨List.mem_cons_self _ _, List.mem_cons_of_mem _ hb, ?_⟩
        intro hnd heq
        have hni := (List.nodup_cons.mp hnd).1
        dsimp at heq
        exact hni (heq ▸ hb)
      · obtain ⟨h1, h2, h3⟩ := ih p h
        exact ⟨List.mem_cons_of_mem _ h1, List.mem_cons_of_mem _ h2,
          fun hnd => h3 (List.nodup_cons.mp hnd).2⟩

/-- Every member of the hostile-pair set is the sorted key of some pair
produced by the nested group loop. -/
theorem mem_computeHostilePairs {agents : List Agent} {k : String}
    (hk : k ∈ computeHostilePairs agents) :
    ∃ p : String × String,
      p ∈ distinctPairs (firstDedup (agents.map (fun a => a.affiliation))) ∧
      k = sortKey p.1 p.2 := by
  unfold computeHostilePairs at hk
  rw [List.mem_filterMap] at hk
  obtain ⟨p, hp, heq⟩ := hk
  refine ⟨p, hp, ?_⟩
  by_cases hc : groupAvgTrust agents p.1 p.2 < 1/2
  · rw [if_pos hc] at heq
    injection heq with h2
    exact h2.symm
  · rw [if_neg hc] at heq
    cases heq

/-- C9: the hostile-pair set only ever contains sorted keys of two
distinct affiliation labels (each unordered pair of different groups is
compared exactly once), so — as long as affiliation labels do not
themselves contain the bar separator — an obligation between two agents
sharing one affiliation is never suppressed by the hostility filter. -/
theorem C9_hostile_pairs_distinct (agents : List Agent)
    (h : ∀ a ∈ agents, pipeFree a.affiliation) :
    (∀ k ∈ computeHostilePairs agents,
      ∃ g1 g2 : String, g1 ∈ agents.map (fun a => a.affiliation) ∧
        g2 ∈ agents.map (fun a => a.affiliation) ∧ g1 ≠ g2 ∧ k = sortKey g1 g2) ∧
    (∀ a ∈ agents, ∀ b ∈ agents, a.affiliation = b.affiliation →
      sortKey a.affiliation b.affiliation ∉ computeHostilePairs agents) := by
  have hmem : ∀ k ∈ computeHostilePairs agents,
      ∃ g1 g2 : String, g1 ∈ agents.map (fun a => a.affiliation) ∧
        g2 ∈ agents.map (fun a => a.affiliation) ∧ g1 ≠ g2 ∧ k = sortKey g1 g2 := by
    intro k hk
    obtain ⟨p, hp, hkey⟩ := mem_computeHostilePairs hk
    obtain ⟨h1, h2, h3⟩ := distinctPairs_mem _ p hp
    exact ⟨p.1, p.2, firstDedup_sub _ _ h1, firstDedup_sub _ _ h2,
      h3 (firstDedup_nodup _), hkey⟩
  refine ⟨hmem, ?_⟩
  intro a ha b hb hab hk
  obtain ⟨g1, g2, hg1, hg2, hne, hkey⟩ := hmem _ hk
  rw [hab, sortKey_self] at hkey
  have hpb : pipeFree b.affiliation := h b hb
  have hp1 : pipeFree g1 := by
    rw [List.mem_map] at hg1
    obtain ⟨x, hx, rfl⟩ := hg1
    exact h x hx
  have hp2 : pipeFree g2 := by
    rw [List.mem_map] at hg2
    obtain ⟨x, hx, rfl⟩ := hg2
    exact h x hx
  rcases sortKey_eq_or g1 g2 with hs | hs <;> rw [hs] at hkey
  · obtain ⟨e1, e2⟩ := pipe_encode_inj hpb hp1 hkey
    exact hne (e1.symm.trans e2)
  · obtain ⟨e1, e2⟩ := pipe_encode_inj hpb hp2 hkey
    exact hne (e2.symm.trans e1)

/-- First witness agent: affiliation "pref_legal". -/
def w9a : Agent := { defaultAgent with id := 0, affiliation := "pref_legal" }

/-- Second witness agent: the same affiliation "pref_legal". -/
def w9b : Agent := { defaultAgent with id := 1, affiliation := "pref_legal" }

/-- Third witness agent: affiliation "pref_care". -/
def w9c : Agent := { defaultAgent with id := 2, affiliation := "pref_care" }

/-- Witness for C9 at a concrete three-agent population with a shared
affiliation. -/
theorem C9_hostile_pairs_distinct_witness :
    (∀ a ∈ [w9a, w9b, w9c], pipeFree a.affiliation) ∧
    sortKey w9a.affiliation w9b.affiliation ∉ computeHostilePairs [w9a, w9b, w9c] :=
  ⟨by decide,
    (C9_hostile_pairs_distinct [w9a, w9b, w9c] (by decide)).2 w9a (by decide) w9b
      (by decide) rfl⟩
